import Mathlib

/-!
Verification of the batch-worker discovery-and-ranking pipeline.

This file shallowly embeds the TypeScript sources:
* `BM25Service` (bm25.service.ts): tokenizer, index construction
  (`initialize`), `calculateIDF`, `caculateScore` (sic), `search`;
* `CrawlingService.isUrlAllowed` (crawling.service.ts): the robots-policy
  cache decision procedure;
* `BatchService.generateContents` (brave-search.service.ts): the pipeline
  orchestrator.  The repository contains two revisions of this class; both
  are embedded (`generateContentsV1` for the first, `generateContentsV2`
  for the second).

Numbers: the source computes scores with JavaScript IEEE doubles, and the
specification states them as exact real arithmetic with the natural
logarithm.  The embedding is generic over a `LinearOrderedField F`
together with a logarithm function `log : F → F`; theorems about the
logarithm's analytic properties instantiate `F := ℝ`, `log := Real.log`.
Division by zero: the only division whose divisor can be zero is
`docLen / avgDocLength`, and it is reachable only when `avgDocLength > 0`
(a positive term frequency forces a nonempty token list), so Lean's
`x / 0 = 0` convention and JavaScript's `NaN` never produce different
observable outputs.

JavaScript `Map` is embedded as an association list with `Map.get` /
`Map.set` semantics (`jsGet`, `jsSet`); `Map.set` overwrites in place or
appends at the end, exactly as the insertion-ordered JS `Map` does.
`Array.prototype.sort` is stable (ECMA-262), so it is embedded as a
stable insertion sort on the comparator key.
-/

/-! ## JavaScript `Map` as an association list -/

/-- `Map.get k`: the value stored under the first (and only) binding of
`k`, if any. -/
def jsGet {α β : Type} [DecidableEq α] (m : List (α × β)) (k : α) : Option β :=
  (m.find? (fun p => p.1 = k)).map (·.2)

/-- `Map.set k v`: overwrite the binding of `k` in place when present,
otherwise append it at the end (JS `Map` preserves insertion order). -/
def jsSet {α β : Type} [DecidableEq α] (m : List (α × β)) (k : α) (v : β) :
    List (α × β) :=
  if m.any (fun p => p.1 = k) then
    m.map (fun p => if p.1 = k then (k, v) else p)
  else
    m ++ [(k, v)]

/-! ## The BM25 tokenizer

`tokenize` (bm25.service.ts):
```
text.toLowerCase().replace(/[^\w\s]/g, ' ').split(/\s+/)
    .filter((token) => token.length > 0)
```
`\w` is the ASCII class `[A-Za-z0-9_]`; `\s` is the JS whitespace class.
`toLowerCase` is embedded on the character classes the pipeline meets
(ASCII letters map A–Z to a–z; Hangul and the other uncased characters
map to themselves).
-/

/-- The JS regex class `\w`, i.e. `[A-Za-z0-9_]`. -/
def isWordChar (c : Char) : Bool :=
  ('a' ≤ c && c ≤ 'z') || ('A' ≤ c && c ≤ 'Z') || ('0' ≤ c && c ≤ '9') || c = '_'

/-- The JS regex class `\s`: ASCII whitespace plus the Unicode space
separators recognised by ECMA-262. -/
def isSpaceChar (c : Char) : Bool :=
  c = ' ' || c = '\t' || c = '\n' || c = '\r' ||
  c = '\x0b' || c = '\x0c' || c = ' ' || c = ' ' ||
  (' ' ≤ c && c ≤ ' ') || c = ' ' || c = ' ' ||
  c = ' ' || c = ' ' || c = '　' || c = '﻿'

/-- `String.prototype.toLowerCase`, restricted to the character classes the
pipeline meets: A–Z lower to a–z; digits, underscore, whitespace and
Hangul (which has no case) are fixed points. -/
def jsToLower (c : Char) : Char :=
  if 'A' ≤ c && c ≤ 'Z' then Char.ofNat (c.toNat + 32) else c

/-- `.replace(/[^\w\s]/g, ' ')` on a single character. -/
def replaceNonWord (c : Char) : Char :=
  if !isWordChar c && !isSpaceChar c then ' ' else c

/-- `.split(/\s+/)` followed by `.filter(token.length > 0)`: splitting at
every whitespace character and dropping empty chunks yields the same
tokens as splitting on whitespace runs. -/
def splitTokens (cs : List Char) : List (List Char) :=
  (cs.splitOnP isSpaceChar).filter (fun t => t.length > 0)

/-- `BM25Service.tokenize`. -/
def tokenize (text : String) : List String :=
  (splitTokens ((text.data.map jsToLower).map replaceNonWord)).map
    (fun cs => String.mk cs)

/-! ## BM25 index construction (`BM25Service.initialize`) -/

/-- The orchestrator's rankable document shape `{ title, content }`
(named `CrawledDocument` in the BM25 module's import). -/
structure CrawledDoc where
  title : String
  content : String
deriving DecidableEq

/-- The state of one `BM25Service` instance after the constructor ran
`initialize`.  The `idfCache` field of the class is omitted: it only
memoizes the pure function `calculateIDF`, writing exactly the value that
the formula recomputes, so it has no observable effect. -/
structure BM25Index (F : Type) where
  documents : List CrawledDoc
  k1 : F
  b : F
  avgDocLength : F
  docLengths : List (String × Nat)
  termFrequencies : List (String × List (String × Nat))
  documentCntsHasTerm : List (String × Nat)

/-- The per-document term-frequency map:
`termFreq.set(token, (termFreq.get(token) ?? 0) + 1)` over the tokens. -/
def buildTermFreq (tokens : List String) : List (String × Nat) :=
  tokens.foldl (fun tf token => jsSet tf token ((jsGet tf token).getD 0 + 1)) []

/-- Loop body of `initialize` for one document.  Note the document-count
update is a faithful rendering of the source line
`this.documentCntsHasTerm.set(term, this.documentCntsHasTerm.get(term) ?? 0 + 1)`:
`??` binds looser than `+`, so the stored value is `get(term) ?? 1`. -/
def indexDoc (acc : Nat × List (String × Nat) × List (String × List (String × Nat)) ×
    List (String × Nat)) (doc : CrawledDoc) :
    Nat × List (String × Nat) × List (String × List (String × Nat)) ×
    List (String × Nat) :=
  let (totalLength, docLengths, termFrequencies, documentCnts) := acc
  let tokens := tokenize doc.content
  let docLength := tokens.length
  let termFreq := buildTermFreq tokens
  let uniqueTerms := tokens.eraseDups
  (totalLength + docLength,
   jsSet docLengths doc.title docLength,
   jsSet termFrequencies doc.title termFreq,
   uniqueTerms.foldl (fun m term => jsSet m term ((jsGet m term).getD (0 + 1)))
     documentCnts)

/-- The `BM25Service` constructor together with `initialize`.  The class
defaults are `k1 = 1.5`, `b = 0.75`; `avgDocLength = totalLength / N`. -/
def mkBM25 (F : Type) [LinearOrderedField F] (documents : List CrawledDoc)
    (k1 b : F) : BM25Index F :=
  let acc := documents.foldl indexDoc (0, [], [], [])
  { documents := documents
    k1 := k1
    b := b
    avgDocLength := (acc.1 : F) / (documents.length : F)
    docLengths := acc.2.1
    termFrequencies := acc.2.2.1
    documentCntsHasTerm := acc.2.2.2 }

/-! ## Scoring and search -/

/-- `BM25Service.calculateIDF` (cache-free; the cache is write-through of
this very formula): `ln((N - df + 0.5) / (df + 0.5) + 1)` with
`df = documentCntsHasTerm.get(term) ?? 0`. -/
def calculateIDF (F : Type) [LinearOrderedField F] (log : F → F)
    (idx : BM25Index F) (term : String) : F :=
  let N : F := (idx.documents.length : Nat)
  let df : F := ((jsGet idx.documentCntsHasTerm term).getD 0 : Nat)
  log ((N - df + 1 / 2) / (df + 1 / 2) + 1)

/-- `BM25Service.caculateScore` (sic).  Returns 0 when the title has no
term-frequency entry; skips query terms with zero frequency; otherwise
adds `idf * (tf * (k1 + 1)) / (tf + k1 * (1 - b + b * (docLen / avgDocLen)))`. -/
def caculateScore (F : Type) [LinearOrderedField F] (log : F → F)
    (idx : BM25Index F) (title : String) (queryTerm : List String) : F :=
  let docLength : F := (((jsGet idx.docLengths title).getD 0 : Nat) : F)
  match jsGet idx.termFrequencies title with
  | none => 0
  | some termFreq =>
    queryTerm.foldl (fun score term =>
      let tf : Nat := (jsGet termFreq term).getD 0
      if tf = 0 then score
      else
        let idf := calculateIDF F log idx term
        let numerator := (tf : F) * (idx.k1 + 1)
        let denominator :=
          (tf : F) + idx.k1 * (1 - idx.b + idx.b * (docLength / idx.avgDocLength))
        score + idf * (numerator / denominator)) 0

/-- A `{ document, score }` pair as produced by `search`. -/
structure RankedResult (F : Type) where
  document : CrawledDoc
  score : F
deriving DecidableEq

/-- Stable insertion step: place `x` before the first element whose key
is `≤ key x` (elements strictly greater stay in front, ties keep their
original relative order). -/
def insertByScoreDesc {α F : Type} [LinearOrder F] (key : α → F) (x : α) :
    List α → List α
  | [] => [x]
  | y :: ys =>
    if key y ≤ key x then x :: y :: ys else y :: insertByScoreDesc key x ys

/-- `Array.prototype.sort((a, b) => b.score - a.score)`: ECMA-262 requires
a stable sort consistent with the comparator, i.e. stable descending
order on the key; every stable sorting algorithm computes the same list,
so a stable insertion sort is an exact embedding. -/
def sortByScoreDesc {α F : Type} [LinearOrder F] (key : α → F) :
    List α → List α
  | [] => []
  | x :: xs => insertByScoreDesc key x (sortByScoreDesc key xs)

/-- `BM25Service.search`: score every document, sort descending,
`slice(0, topK)`, then keep strictly positive scores. -/
def search (F : Type) [LinearOrderedField F] (log : F → F) (idx : BM25Index F)
    (query : String) (topK : Nat) : List (RankedResult F) :=
  let queryTerms := tokenize query
  let results := idx.documents.map (fun doc =>
    RankedResult.mk doc (caculateScore F log idx doc.title queryTerms))
  ((sortByScoreDesc (fun r => r.score) results).take topK).filter
    (fun r => decide (0 < r.score))

/-! ## Robots policy check (`CrawlingService.isUrlAllowed`)

External boundaries are oracle parameters: `parseOrigin` embeds the
platform `new URL` constructor (`none` = the constructor throws a
`TypeError` on a malformed URL, `some origin` = `url.origin`); `fetch`
embeds `fetchWithTimeout`; `robots` embeds the `robots-parser` library
call `robotsParser(robotsUrl, body).isAllowed(targetUrl, userAgent)`.
The QuickLRU cache is embedded as an association map; the claims under
verification quantify over a single call on an uncached origin, so LRU
eviction and age expiry are irrelevant here. -/

/-- Outcome of one `fetchWithTimeout`: a settled response, an abort
(timeout, `error.name === 'AbortError'`) or any other rejection. -/
inductive FetchOutcome where
  | response (ok : Bool) (status : Nat) (body : String)
  | abortError
  | networkError
deriving DecidableEq

/-- `CrawlingService.isUrlAllowed`.  The first component is the JS
outcome: `Except.ok` = the promise resolves with a boolean,
`Except.error` = an exception escapes the method.  The second component
is the robots cache after the call. -/
def isUrlAllowed
    (parseOrigin : String → Option String)
    (fetch : String → FetchOutcome)
    (robots : String → String → String → String → Option Bool)
    (cache : List (String × Bool))
    (targetUrl userAgent : String) :
    Except String Bool × List (String × Bool) :=
  match parseOrigin targetUrl with
  | none =>
    -- `const url = new URL(targetUrl)` sits before the try block: the
    -- TypeError propagates out of the method.
    (Except.error "TypeError: Invalid URL", cache)
  | some origin =>
    let robotsUrl := origin ++ "/robots.txt"
    match jsGet cache robotsUrl with
    | some cached => (Except.ok cached, cache)
    | none =>
      match fetch robotsUrl with
      | FetchOutcome.response ok _status body =>
        if ok then
          let isAllowed := (robots robotsUrl body targetUrl userAgent).getD true
          (Except.ok isAllowed, jsSet cache robotsUrl isAllowed)
        else
          -- `throw new Error(...)`: caught below with name `Error`,
          -- which is not `AbortError`, so allow and cache.
          (Except.ok true, jsSet cache robotsUrl true)
      | FetchOutcome.abortError => (Except.ok false, cache)
      | FetchOutcome.networkError => (Except.ok true, jsSet cache robotsUrl true)

/-! ## Pipeline orchestrator (`BatchService.generateContents`)

The persistent store (Prisma), the Brave search client, the crawler and
the generation service are external boundaries; they appear as an
explicit `Store` value and an `Oracles` record of total functions.  The
prompt-builder modules (`createConceptPrompts` …) and the
`BATCH_OPTIONS` constants are not part of the sources under
verification, so they are oracle fields as well; no claim depends on
their bodies.  Keyword/article identifiers are JS `bigint`s, embedded as
`Nat`.  A `Trace` counts the outbound calls an invocation makes. -/

structure KeywordInfo where
  name : String
  description : String
deriving DecidableEq

structure ArticleRow where
  id : Nat
  keywordId : Nat
  title : String
  content : String
  summary : String
  publishedAt : String
deriving DecidableEq

structure QuizRow where
  articleId : Nat
  question : String
  answer : String
deriving DecidableEq

/-- The persistence boundary: keyword rows, their `TodaysKeyword` dates,
article rows and quiz rows; `nextArticleId` models the autoincrement id
sequence. -/
structure Store where
  keywords : List (Nat × KeywordInfo)
  todaysKeywordDates : List (Nat × List String)
  articles : List ArticleRow
  quizzes : List QuizRow
  nextArticleId : Nat
deriving DecidableEq

structure SearchResult where
  title : String
  url : String
  description : String
deriving DecidableEq

structure CrawlResult where
  title : String
  texts : List String
deriving DecidableEq

structure ArticleGen where
  title : String
  content : String
deriving DecidableEq

structure QuizGen where
  question : String
  answer : String
deriving DecidableEq

/-- Counts of outbound calls made during one orchestrator invocation. -/
structure Trace where
  searchCalls : Nat
  crawlCalls : Nat
  articleGenCalls : Nat
  summaryCalls : Nat
  quizGenCalls : Nat
deriving DecidableEq

def Trace.zero : Trace := ⟨0, 0, 0, 0, 0⟩

def Trace.add (t₁ t₂ : Trace) : Trace :=
  ⟨t₁.searchCalls + t₂.searchCalls, t₁.crawlCalls + t₂.crawlCalls,
   t₁.articleGenCalls + t₂.articleGenCalls,
   t₁.summaryCalls + t₂.summaryCalls, t₁.quizGenCalls + t₂.quizGenCalls⟩

/-- The external collaborators of the orchestrator, as total functions. -/
structure Oracles (F : Type) where
  log : F → F
  maxTextLen : Nat
  searchByKeyword : String → List SearchResult
  crawlWebsite : SearchResult → Option CrawlResult
  genArticle : String → ArticleGen
  genText : String → String
  genQuizzes : String → List QuizGen
  promptConcept : String → String → String → String
  promptExample : String → String → String → String
  promptRelatedWords : String → String → String → String
  promptImportance : String → String → String → String
  promptExploration : String → String → String → String
  promptSummary : String → String
  promptQuizzes : String → String
  serialize : List CrawledDoc → String
  now : String

/-- Errors of the `ERROR_MESSAGE` taxonomy that `generateContents` can
raise. -/
inductive BatchError where
  | keywordNotFound
  | contentsAlreadyExist
  | keywordDateNotExists
deriving DecidableEq

/-- `BatchService.isArticleExists`: `article.findFirst({where: {keywordId}})`. -/
def isArticleExists (store : Store) (keywordId : Nat) : Bool :=
  store.articles.any (fun a => a.keywordId = keywordId)

/-- `BatchService.isQuizExists`: `quiz.findFirst({where: {Article: {keywordId}}})`. -/
def isQuizExists (store : Store) (keywordId : Nat) : Bool :=
  store.quizzes.any (fun q =>
    store.articles.any (fun a => a.id = q.articleId && a.keywordId = keywordId))

/-- `BatchService.findKeyword`: `keyword.findUnique` on the id. -/
def findKeyword (store : Store) (keywordId : Nat) : Option KeywordInfo :=
  jsGet store.keywords keywordId

/-- `BatchService.generateQuery`:
``` `${name} ${description.split('.')[0]}` ```. -/
def generateQuery (info : KeywordInfo) : String :=
  info.name ++ " " ++ ((info.description.splitOn ".").headD "")

/-- `BatchService.getKeywordPublishedDate` (first revision only). -/
def getKeywordPublishedDate (store : Store) (keywordId : Nat) :
    Except BatchError String :=
  match jsGet store.keywords keywordId with
  | none => Except.error BatchError.keywordNotFound
  | some _ =>
    match (jsGet store.todaysKeywordDates keywordId).getD [] with
    | [] => Except.error BatchError.keywordDateNotExists
    | d :: _ => Except.ok d

/-- `BatchService.generateRelatedData`: search, crawl every candidate,
keep successful crawls, join texts with newlines, keep contents within
the BM25 length bound, rank with a default-configured `BM25Service`, and
serialize the top documents. -/
def generateRelatedData (F : Type) [LinearOrderedField F] (O : Oracles F)
    (info : KeywordInfo) : String × Trace :=
  let query := generateQuery info
  let searchResults := O.searchByKeyword query
  let crawledArr := searchResults.map O.crawlWebsite
  let validDocs :=
    ((crawledArr.filterMap id).map
        (fun cr => CrawledDoc.mk cr.title (String.intercalate "\n" cr.texts))).filter
      (fun d => d.content.length ≤ O.maxTextLen)
  let bm25 := mkBM25 F validDocs (3 / 2) (3 / 4)
  let mostRelatedDocs := (search F O.log bm25 query 7).map (fun r => r.document)
  (O.serialize mostRelatedDocs,
   { Trace.zero with searchCalls := 1, crawlCalls := searchResults.length })

/-- `BatchService.createPrompts`: the five prompt builders applied to the
keyword and the serialized grounding context. -/
def createPrompts (F : Type) [LinearOrderedField F] (O : Oracles F)
    (info : KeywordInfo) : List String × Trace :=
  let (relatedData, t) := generateRelatedData F O info
  ([O.promptConcept info.name info.description relatedData,
    O.promptExample info.name info.description relatedData,
    O.promptRelatedWords info.name info.description relatedData,
    O.promptImportance info.name info.description relatedData,
    O.promptExploration info.name info.description relatedData], t)

/-- `BatchService.generateArticles`: five generation calls, five summary
calls, then the publish date (`getKeywordPublishedDate` in the first
revision, `new Date()` in the second — passed in by the caller), then one
transaction inserting every article row. -/
def generateArticles (F : Type) [LinearOrderedField F] (O : Oracles F)
    (store : Store) (keywordId : Nat) (prompts : List String)
    (pubDate : Except BatchError String) :
    Except BatchError Store × Trace :=
  let titleAndContents := prompts.map O.genArticle
  let summaries :=
    titleAndContents.map (fun tc => O.genText (O.promptSummary tc.content))
  let t : Trace :=
    { Trace.zero with
      articleGenCalls := prompts.length
      summaryCalls := titleAndContents.length }
  match pubDate with
  | Except.error e => (Except.error e, t)
  | Except.ok publishedAt =>
    let newArticles :=
      (List.zip titleAndContents summaries).enum.map (fun (i, tc, s) =>
        ArticleRow.mk (store.nextArticleId + i) keywordId tc.title tc.content s
          publishedAt)
    (Except.ok
      { store with
        articles := store.articles ++ newArticles
        nextArticleId := store.nextArticleId + newArticles.length }, t)

/-- `BatchService.generateQuizzes`: list the keyword's articles, one quiz
generation call per article, then one transaction inserting every quiz
row (the transaction body runs its inserts as a `Promise.all`; the store
records one fixed interleaving, grouped by article in list order). -/
def generateQuizzes (F : Type) [LinearOrderedField F] (O : Oracles F)
    (store : Store) (keywordId : Nat) : Store × Trace :=
  let articles := store.articles.filter (fun a => a.keywordId = keywordId)
  let quizzes :=
    articles.map (fun a => (a.id, O.genQuizzes (O.promptQuizzes a.content)))
  let newQuizzes :=
    quizzes.flatMap (fun aq => aq.2.map (fun q => QuizRow.mk aq.1 q.question q.answer))
  ({ store with quizzes := store.quizzes ++ newQuizzes },
   { Trace.zero with quizGenCalls := articles.length })

/-- The quiz rows that one `generateQuizzes` invocation appends: one
group per stored article of the keyword, one row per generated quiz. -/
def newQuizRows (F : Type) [LinearOrderedField F] (O : Oracles F)
    (store : Store) (keywordId : Nat) : List QuizRow :=
  (store.articles.filter (fun a => a.keywordId = keywordId)).flatMap
    (fun a => (O.genQuizzes (O.promptQuizzes a.content)).map
      (fun q => QuizRow.mk a.id q.question q.answer))

/-- `BatchService.generateContents`, first revision (the keyword is
resolved only *after* the article/quiz existence checks). -/
def generateContentsV1 (F : Type) [LinearOrderedField F] (O : Oracles F)
    (store : Store) (keywordId : Nat) :
    Except BatchError Unit × Store × Trace :=
  if isArticleExists store keywordId then
    if isQuizExists store keywordId then
      (Except.error BatchError.contentsAlreadyExist, store, Trace.zero)
    else
      let (s', t) := generateQuizzes F O store keywordId
      (Except.ok (), s', t)
  else
    match findKeyword store keywordId with
    | none => (Except.error BatchError.keywordNotFound, store, Trace.zero)
    | some info =>
      let (prompts, t₁) := createPrompts F O info
      match generateArticles F O store keywordId prompts
          (getKeywordPublishedDate store keywordId) with
      | (Except.error e, t₂) => (Except.error e, store, t₁.add t₂)
      | (Except.ok s₂, t₂) =>
        let (s₃, t₃) := generateQuizzes F O s₂ keywordId
        (Except.ok (), s₃, (t₁.add t₂).add t₃)

/-- `BatchService.generateContents`, second revision (the keyword is
resolved first; the publish date is `new Date()`). -/
def generateContentsV2 (F : Type) [LinearOrderedField F] (O : Oracles F)
    (store : Store) (keywordId : Nat) :
    Except BatchError Unit × Store × Trace :=
  match findKeyword store keywordId with
  | none => (Except.error BatchError.keywordNotFound, store, Trace.zero)
  | some info =>
    if isArticleExists store keywordId then
      if isQuizExists store keywordId then
        (Except.error BatchError.contentsAlreadyExist, store, Trace.zero)
      else
        let (s', t) := generateQuizzes F O store keywordId
        (Except.ok (), s', t)
    else
      let (prompts, t₁) := createPrompts F O info
      match generateArticles F O store keywordId prompts
          (Except.ok O.now) with
      | (Except.error e, t₂) => (Except.error e, store, t₁.add t₂)
      | (Except.ok s₂, t₂) =>
        let (s₃, t₃) := generateQuizzes F O s₂ keywordId
        (Except.ok (), s₃, (t₁.add t₂).add t₃)

/-! ## Character classes for the tokenizer claims -/

/-- ASCII lower-case word characters `[a-z0-9_]`. -/
def isLowerTokenChar (c : Char) : Bool :=
  ('a' ≤ c && c ≤ 'z') || ('0' ≤ c && c ≤ '9') || c = '_'

/-- Hangul syllables (U+AC00 to U+D7A3). -/
def isHangulSyllable (c : Char) : Bool :=
  '가' ≤ c && c ≤ '힣'

/-! ## Concrete instances used by counterexamples and witnesses -/

/-- External collaborators that all return trivial values. -/
def trivialOracles : Oracles ℚ where
  log := fun _ => 0
  maxTextLen := 0
  searchByKeyword := fun _ => []
  crawlWebsite := fun _ => none
  genArticle := fun _ => ⟨"", ""⟩
  genText := fun _ => ""
  genQuizzes := fun _ => []
  promptConcept := fun _ _ _ => ""
  promptExample := fun _ _ _ => ""
  promptRelatedWords := fun _ _ _ => ""
  promptImportance := fun _ _ _ => ""
  promptExploration := fun _ _ _ => ""
  promptSummary := fun _ => ""
  promptQuizzes := fun _ => ""
  serialize := fun _ => ""
  now := ""

def kwInfo7 : KeywordInfo := ⟨"inflation", "A sustained rise. More."⟩

def article1 : ArticleRow := ⟨1, 7, "t", "c", "s", "d"⟩

def quiz1 : QuizRow := ⟨1, "q", "a"⟩

/-- Keyword 7 exists and has one article with one quiz. -/
def storeComplete : Store := ⟨[(7, kwInfo7)], [], [article1], [quiz1], 2⟩

/-- Keyword 7 exists and has one article and no quiz. -/
def storeArticlesOnly : Store := ⟨[(7, kwInfo7)], [], [article1], [], 2⟩

/-- No keyword row with id 7, yet an article and a quiz are stored under
keyword id 7. -/
def storeOrphan : Store := ⟨[], [], [article1], [quiz1], 2⟩

/-- The empty store. -/
def storeEmpty : Store := ⟨[], [], [], [], 1⟩

/-- The spec's BM25 worked example: document `D1` has 10 tokens and
contains the query term `t` 3 times; `D2` has 5 tokens and contains it
once. -/
def docsWorkedExample : List CrawledDoc :=
  [⟨"D1", "t t t a b c d e f g"⟩, ⟨"D2", "t u v w x"⟩]

/-- Two documents that share one title: the second overwrites the first
one's term-frequency and length entries. -/
def docsSharedTitle : List CrawledDoc := [⟨"T", "a"⟩, ⟨"T", "b"⟩]

/-! # Theorems -/

/-! ## Association-map lemmas -/

theorem find?_overwrite_self {α β : Type} [DecidableEq α]
    (m : List (α × β)) (k : α) (v : β) (h : m.any (fun p => p.1 = k)) :
    List.find? (fun p => p.1 = k)
      (m.map (fun p => if p.1 = k then (k, v) else p)) = some (k, v) := by
  induction m with
  | nil => simp at h
  | cons p m ih =>
    by_cases hp : p.1 = k
    · simp [List.find?, hp]
    · simp only [List.any_cons, Bool.or_eq_true, decide_eq_true_eq] at h
      rcases h with h | h
      · exact absurd h hp
      · simpa [List.find?, hp] using ih (by simpa using h)

theorem find?_overwrite_ne {α β : Type} [DecidableEq α]
    (m : List (α × β)) (k k' : α) (v : β) (hne : k' ≠ k) :
    List.find? (fun p => p.1 = k')
      (m.map (fun p => if p.1 = k then (k, v) else p)) =
    List.find? (fun p => p.1 = k') m := by
  induction m with
  | nil => simp
  | cons p m ih =>
    by_cases hp : p.1 = k
    · have hp' : ¬ p.1 = k' := fun hh => hne (hh ▸ hp ▸ rfl)
      simp [List.find?, hp, Ne.symm hne, hp', ih]
    · by_cases hp' : p.1 = k'
      · simp [List.find?, hp, hp', hne]
      · simp [List.find?, hp, hp', ih]

theorem jsGet_jsSet_self {α β : Type} [DecidableEq α]
    (m : List (α × β)) (k : α) (v : β) : jsGet (jsSet m k v) k = some v := by
  unfold jsGet jsSet
  split
  · rename_i h
    rw [find?_overwrite_self m k v h]
    rfl
  · rename_i h
    have hnone : List.find? (fun p => p.1 = k) m = none := by
      rw [List.find?_eq_none]
      intro x hx
      simp only [decide_eq_true_eq]
      intro hk
      exact h (List.any_eq_true.mpr ⟨x, hx, by simpa using hk⟩)
    rw [List.find?_append, hnone]
    simp [List.find?]

theorem jsGet_jsSet_ne {α β : Type} [DecidableEq α]
    (m : List (α × β)) (k k' : α) (v : β) (hne : k' ≠ k) :
    jsGet (jsSet m k v) k' = jsGet m k' := by
  unfold jsGet jsSet
  split
  · rw [find?_overwrite_ne m k k' v hne]
  · rw [List.find?_append]
    simp [List.find?, Ne.symm hne]

/-! ## C1: document frequency -/

/-- Claim C1. The specification says `documentCntsHasTerm` maps each term to
the number of distinct documents whose token set contains it.  The source
line `documentCntsHasTerm.set(term, documentCntsHasTerm.get(term) ?? 0 + 1)`
parses as `get(term) ?? 1` (`??` binds looser than `+`), so the stored
count never passes 1: with two documents both containing "apple" the
stored document frequency is 1 while 2 distinct documents contain the
term. -/
theorem C1_document_frequency_stuck_at_one :
    jsGet ((mkBM25 ℚ [⟨"x", "apple pie"⟩, ⟨"y", "apple juice"⟩]
        (3 / 2) (3 / 4)).documentCntsHasTerm) "apple" = some 1 ∧
    ([⟨"x", "apple pie"⟩, ⟨"y", "apple juice"⟩] : List CrawledDoc).countP
        (fun d => (tokenize d.content).contains "apple") = 2 := by
  decide

/-! ## C3: robots fetch failure asymmetry -/

/-- Claim C3. For an uncached origin: a robots fetch timeout makes
`isUrlAllowed` resolve to `false` and leaves the cache untouched, while
any other failure (a rejected fetch, or a non-success status — which the
method turns into a thrown `Error` whose name is not `AbortError`) makes
it resolve to `true` and caches that decision. -/
theorem C3_timeout_uncached_other_failures_cached
    (parseOrigin : String → Option String) (fetch : String → FetchOutcome)
    (robots : String → String → String → String → Option Bool)
    (cache : List (String × Bool)) (targetUrl userAgent origin : String)
    (hparse : parseOrigin targetUrl = some origin)
    (hmiss : jsGet cache (origin ++ "/robots.txt") = none) :
    (fetch (origin ++ "/robots.txt") = FetchOutcome.abortError →
      isUrlAllowed parseOrigin fetch robots cache targetUrl userAgent =
        (Except.ok false, cache)) ∧
    (∀ status body,
      fetch (origin ++ "/robots.txt") = FetchOutcome.response false status body →
      isUrlAllowed parseOrigin fetch robots cache targetUrl userAgent =
        (Except.ok true, jsSet cache (origin ++ "/robots.txt") true)) ∧
    (fetch (origin ++ "/robots.txt") = FetchOutcome.networkError →
      isUrlAllowed parseOrigin fetch robots cache targetUrl userAgent =
        (Except.ok true, jsSet cache (origin ++ "/robots.txt") true)) := by
  refine ⟨fun h => ?_, fun status body h => ?_, fun h => ?_⟩ <;>
    simp [isUrlAllowed, hparse, hmiss, h]

/-- Witness for C3 at a concrete uncached origin with a timing-out
fetch. -/
theorem C3_witness :
    ((fun _ : String => some "https://e.com") "https://e.com/p"
        = some "https://e.com") ∧
    jsGet ([] : List (String × Bool)) ("https://e.com" ++ "/robots.txt") = none ∧
    isUrlAllowed (fun _ => some "https://e.com")
        (fun _ => FetchOutcome.abortError) (fun _ _ _ _ => none) []
        "https://e.com/p" "bot" = (Except.ok false, []) :=
  ⟨rfl, rfl,
    (C3_timeout_uncached_other_failures_cached (fun _ => some "https://e.com")
      (fun _ => FetchOutcome.abortError) (fun _ _ _ _ => none) []
      "https://e.com/p" "bot" "https://e.com" rfl rfl).1 rfl⟩

/-! ## C4: `isUrlAllowed` never throws -/

/-- Claim C4, counterexample. `const url = new URL(targetUrl)` is evaluated
before the `try` block; `new URL('not a url')` throws a `TypeError`
(embedded as the `parseOrigin` oracle returning `none`), and that
exception escapes `isUrlAllowed` instead of a boolean being returned. -/
theorem C4_counterexample_throws_on_malformed_url :
    (isUrlAllowed (fun _ => none) (fun _ => FetchOutcome.networkError)
        (fun _ _ _ _ => none) [] "not a url" "bot").1 =
      Except.error "TypeError: Invalid URL" := rfl

/-- Claim C4, amended. For every target URL that the `URL` constructor
accepts, `isUrlAllowed` terminates with a boolean result and never
throws; on a malformed URL the constructor's `TypeError` propagates to
the caller (`crawlWebsite`, which catches it). -/
theorem C4_amended_no_throw_on_wellformed_url
    (parseOrigin : String → Option String) (fetch : String → FetchOutcome)
    (robots : String → String → String → String → Option Bool)
    (cache : List (String × Bool)) (targetUrl userAgent origin : String)
    (hparse : parseOrigin targetUrl = some origin) :
    ∃ allowed cache',
      isUrlAllowed parseOrigin fetch robots cache targetUrl userAgent =
        (Except.ok allowed, cache') := by
  simp only [isUrlAllowed, hparse]
  cases hget : jsGet cache (origin ++ "/robots.txt") with
  | some v =>
    refine ⟨v, cache, ?_⟩
    simp [hget]
  | none =>
    cases hf : fetch (origin ++ "/robots.txt") with
    | response ok status body =>
      cases ok with
      | true =>
        refine ⟨(robots (origin ++ "/robots.txt") body targetUrl userAgent).getD true,
          jsSet cache (origin ++ "/robots.txt")
            ((robots (origin ++ "/robots.txt") body targetUrl userAgent).getD true), ?_⟩
        simp [hget, hf]
      | false =>
        refine ⟨true, jsSet cache (origin ++ "/robots.txt") true, ?_⟩
        simp [hget, hf]
    | abortError =>
      refine ⟨false, cache, ?_⟩
      simp [hget, hf]
    | networkError =>
      refine ⟨true, jsSet cache (origin ++ "/robots.txt") true, ?_⟩
      simp [hget, hf]

/-- Witness for the amended C4 at a concrete well-formed URL. -/
theorem C4_amended_witness :
    ((fun _ : String => some "https://e.com") "https://e.com/p"
        = some "https://e.com") ∧
    ∃ allowed cache',
      isUrlAllowed (fun _ => some "https://e.com")
        (fun _ => FetchOutcome.networkError) (fun _ _ _ _ => none) []
        "https://e.com/p" "bot" = (Except.ok allowed, cache') :=
  ⟨rfl, C4_amended_no_throw_on_wellformed_url _ _ _ _ _ _ _ rfl⟩

/-! ## C5: absent keyword -/

/-- Claim C5, counterexample. In the first revision of `generateContents`
the article/quiz existence checks run *before* keyword resolution: on a
store holding an article and a quiz under keyword id 7 but no keyword
row 7, the invocation fails with `ContentsAlreadyExist`, not
`KeywordNotFound`. -/
theorem C5_counterexample_checks_before_resolution :
    findKeyword storeOrphan 7 = none ∧
    generateContentsV1 ℚ trivialOracles storeOrphan 7 =
      (Except.error BatchError.contentsAlreadyExist, storeOrphan, Trace.zero) :=
  ⟨rfl, rfl⟩

/-- Claim C5, amended. In the second revision the keyword is resolved
first, so an absent keyword id always fails with `KeywordNotFound`,
nothing is generated or persisted and no outbound call is made; in the
first revision the same holds provided no article row is stored under
the absent keyword id (the existence checks run before resolution). -/
theorem C5_amended_absent_keyword
    (F : Type) [LinearOrderedField F] (O : Oracles F) (store : Store)
    (kid : Nat) (habsent : findKeyword store kid = none) :
    generateContentsV2 F O store kid =
      (Except.error BatchError.keywordNotFound, store, Trace.zero) ∧
    (isArticleExists store kid = false →
      generateContentsV1 F O store kid =
        (Except.error BatchError.keywordNotFound, store, Trace.zero)) := by
  constructor
  · simp [generateContentsV2, habsent]
  · intro hart
    simp [generateContentsV1, hart, habsent]

/-- Witness for the amended C5 on the empty store. -/
theorem C5_amended_witness :
    findKeyword storeEmpty 7 = none ∧
    isArticleExists storeEmpty 7 = false ∧
    generateContentsV2 ℚ trivialOracles storeEmpty 7 =
      (Except.error BatchError.keywordNotFound, storeEmpty, Trace.zero) ∧
    generateContentsV1 ℚ trivialOracles storeEmpty 7 =
      (Except.error BatchError.keywordNotFound, storeEmpty, Trace.zero) :=
  ⟨rfl, rfl,
    (C5_amended_absent_keyword ℚ trivialOracles storeEmpty 7 rfl).1,
    (C5_amended_absent_keyword ℚ trivialOracles storeEmpty 7 rfl).2 rfl⟩

/-! ## C6: complete content is a conflict no-op -/

/-- Claim C6. For a stored keyword that already has at least one article
and at least one quiz, both revisions of `generateContents` fail with
`ContentsAlreadyExist`, leave the store unchanged and make no outbound
call. -/
theorem C6_already_complete_conflict_no_writes
    (F : Type) [LinearOrderedField F] (O : Oracles F) (store : Store)
    (kid : Nat) (info : KeywordInfo)
    (hkw : findKeyword store kid = some info)
    (hart : ∃ a ∈ store.articles, a.keywordId = kid)
    (hquiz : ∃ q ∈ store.quizzes, ∃ a ∈ store.articles,
      a.id = q.articleId ∧ a.keywordId = kid) :
    generateContentsV1 F O store kid =
      (Except.error BatchError.contentsAlreadyExist, store, Trace.zero) ∧
    generateContentsV2 F O store kid =
      (Except.error BatchError.contentsAlreadyExist, store, Trace.zero) := by
  have hartB : isArticleExists store kid = true := by
    rcases hart with ⟨a, ha, hk⟩
    exact List.any_eq_true.mpr ⟨a, ha, by simp [hk]⟩
  have hquizB : isQuizExists store kid = true := by
    rcases hquiz with ⟨q, hq, a, ha, h1, h2⟩
    exact List.any_eq_true.mpr
      ⟨q, hq, List.any_eq_true.mpr ⟨a, ha, by simp [h1, h2]⟩⟩
  constructor
  · simp [generateContentsV1, hartB, hquizB]
  · simp [generateContentsV2, hkw, hartB, hquizB]

/-- Witness for C6 on a store with complete content for keyword 7. -/
theorem C6_witness :
    findKeyword storeComplete 7 = some kwInfo7 ∧
    (∃ a ∈ storeComplete.articles, a.keywordId = 7) ∧
    (∃ q ∈ storeComplete.quizzes, ∃ a ∈ storeComplete.articles,
      a.id = q.articleId ∧ a.keywordId = 7) ∧
    generateContentsV1 ℚ trivialOracles storeComplete 7 =
      (Except.error BatchError.contentsAlreadyExist, storeComplete, Trace.zero) :=
  ⟨rfl, by decide, by decide,
    (C6_already_complete_conflict_no_writes ℚ trivialOracles storeComplete 7
      kwInfo7 rfl (by decide) (by decide)).1⟩

/-! ## C9: quiz-only resumption -/

/-- Claim C9. For a stored keyword with at least one article and no quiz,
both revisions of `generateContents` run only quiz generation: the
keyword and article tables are untouched, one quiz-generation call is
made per stored article of the keyword, the generated quiz rows are
appended, and no search, crawl, article-generation or summary call
happens. -/
theorem C9_articles_only_resumes_at_quizzes
    (F : Type) [LinearOrderedField F] (O : Oracles F) (store : Store)
    (kid : Nat) (info : KeywordInfo)
    (hkw : findKeyword store kid = some info)
    (hart : ∃ a ∈ store.articles, a.keywordId = kid)
    (hquiz : ¬ ∃ q ∈ store.quizzes, ∃ a ∈ store.articles,
      a.id = q.articleId ∧ a.keywordId = kid) :
    generateContentsV1 F O store kid =
      (Except.ok (),
       { store with quizzes := store.quizzes ++ newQuizRows F O store kid },
       { Trace.zero with
          quizGenCalls :=
            (store.articles.filter (fun a => a.keywordId = kid)).length }) ∧
    generateContentsV2 F O store kid =
      (Except.ok (),
       { store with quizzes := store.quizzes ++ newQuizRows F O store kid },
       { Trace.zero with
          quizGenCalls :=
            (store.articles.filter (fun a => a.keywordId = kid)).length }) := by
  have hartB : isArticleExists store kid = true := by
    rcases hart with ⟨a, ha, hk⟩
    exact List.any_eq_true.mpr ⟨a, ha, by simp [hk]⟩
  have hquizB : isQuizExists store kid = false := by
    rw [Bool.eq_false_iff]
    intro h
    rcases List.any_eq_true.mp h with ⟨q, hq, hinner⟩
    rcases List.any_eq_true.mp hinner with ⟨a, ha, hcond⟩
    simp only [Bool.and_eq_true, decide_eq_true_eq] at hcond
    exact hquiz ⟨q, hq, a, ha, hcond.1, hcond.2⟩
  constructor
  · simp [generateContentsV1, hartB, hquizB, generateQuizzes, newQuizRows,
      List.flatMap_map, Function.comp]
  · simp [generateContentsV2, hkw, hartB, hquizB, generateQuizzes, newQuizRows,
      List.flatMap_map, Function.comp]

/-- Witness for C9 on a store with an article and no quiz for keyword 7. -/
theorem C9_witness :
    findKeyword storeArticlesOnly 7 = some kwInfo7 ∧
    (∃ a ∈ storeArticlesOnly.articles, a.keywordId = 7) ∧
    (¬ ∃ q ∈ storeArticlesOnly.quizzes, ∃ a ∈ storeArticlesOnly.articles,
      a.id = q.articleId ∧ a.keywordId = 7) ∧
    generateContentsV1 ℚ trivialOracles storeArticlesOnly 7 =
      (Except.ok (),
       { storeArticlesOnly with
          quizzes :=
            storeArticlesOnly.quizzes ++ newQuizRows ℚ trivialOracles storeArticlesOnly 7 },
       { Trace.zero with
          quizGenCalls :=
            (storeArticlesOnly.articles.filter
              (fun a => a.keywordId = 7)).length }) :=
  ⟨rfl, by decide, by decide,
    (C9_articles_only_resumes_at_quizzes ℚ trivialOracles storeArticlesOnly 7
      kwInfo7 rfl (by decide) (by decide)).1⟩

/-! ## Character-level lemmas for the tokenizer -/

theorem char_le_iff_toNat (a b : Char) : a ≤ b ↔ a.toNat ≤ b.toNat := by
  rw [Char.le_def, UInt32.le_def, BitVec.le_def]
  exact Iff.rfl

theorem char_eq_iff_toNat (a b : Char) : a = b ↔ a.toNat = b.toNat := by
  constructor
  · intro h
    rw [h]
  · intro h
    exact Char.ext (UInt32.ext h)

theorem splitOnP_ne_nil {α : Type} (p : α → Bool) (l : List α) :
    l.splitOnP p ≠ [] := by
  induction l with
  | nil => simp [List.splitOnP_nil]
  | cons x xs ih =>
    rw [List.splitOnP_cons]
    split
    · simp
    · cases h : xs.splitOnP p with
      | nil => exact absurd h ih
      | cons hd tl => simp [List.modifyHead]

/-- Every element of a `splitOnP` chunk comes from the original list and
fails the separator predicate. -/
theorem mem_of_mem_splitOnP {α : Type} (p : α → Bool) :
    ∀ (l cs : List α) (c : α), cs ∈ l.splitOnP p → c ∈ cs →
      c ∈ l ∧ p c = false := by
  intro l
  induction l with
  | nil =>
    intro cs c hcs hc
    rw [List.splitOnP_nil] at hcs
    simp only [List.mem_singleton] at hcs
    subst hcs
    simp at hc
  | cons x xs ih =>
    intro cs c hcs hc
    rw [List.splitOnP_cons] at hcs
    by_cases hx : p x = true
    · rw [if_pos hx] at hcs
      rcases List.mem_cons.mp hcs with h | h
      · subst h
        simp at hc
      · have hr := ih cs c h hc
        exact ⟨List.mem_cons_of_mem _ hr.1, hr.2⟩
    · rw [if_neg hx] at hcs
      cases hsp : xs.splitOnP p with
      | nil => exact absurd hsp (splitOnP_ne_nil p xs)
      | cons hd tl =>
        rw [hsp] at hcs
        simp only [List.modifyHead, List.mem_cons] at hcs
        rcases hcs with h | h
        · subst h
          rcases List.mem_cons.mp hc with h1 | h1
          · subst h1
            exact ⟨List.mem_cons_self _ _, Bool.eq_false_iff.mpr hx⟩
          · have hr := ih hd c (by rw [hsp]; exact List.mem_cons_self _ _) h1
            exact ⟨List.mem_cons_of_mem _ hr.1, hr.2⟩
        · have hr := ih cs c (by rw [hsp]; exact List.mem_cons_of_mem _ h) hc
          exact ⟨List.mem_cons_of_mem _ hr.1, hr.2⟩

/-- `toLowerCase` never outputs an ASCII capital letter. -/
theorem jsToLower_not_upper (a : Char) :
    ('A' ≤ jsToLower a && jsToLower a ≤ 'Z') = false := by
  by_cases h : ('A' ≤ a && a ≤ 'Z') = true
  · have h' := h
    simp only [Bool.and_eq_true, decide_eq_true_eq, char_le_iff_toNat] at h'
    rw [show ('A' : Char).toNat = 65 from by decide,
        show ('Z' : Char).toNat = 90 from by decide] at h'
    obtain ⟨i, hi, hti⟩ : ∃ i, i < 26 ∧ a.toNat = 65 + i :=
      ⟨a.toNat - 65, by omega, by omega⟩
    have ha : a = Char.ofNat (65 + i) := by
      rw [← hti]
      exact (Char.ofNat_toNat a).symm
    rw [ha]
    interval_cases i <;> decide
  · unfold jsToLower
    rw [if_neg h]
    exact Bool.eq_false_iff.mpr h

/-- A word character that is not an ASCII capital is in `[a-z0-9_]`. -/
theorem word_char_not_upper_is_lower (x : Char)
    (hw : isWordChar x = true) (hup : ('A' ≤ x && x ≤ 'Z') = false) :
    isLowerTokenChar x = true := by
  simp only [isWordChar, Bool.or_eq_true] at hw
  rcases hw with ((h1 | h2) | h3) | h4
  · simp [isLowerTokenChar, h1]
  · rw [h2] at hup
    simp at hup
  · simp [isLowerTokenChar, h3]
  · simp [isLowerTokenChar, h4]

/-! ## C10: the tokenizer over non-ASCII input -/

/-- Claim C10. Every token produced by `tokenize` consists solely of ASCII
characters `[a-z0-9_]`; every Hangul syllable is turned into a space by
the `replace(/[^\w\s]/g, ' ')` step (it is neither `\w` nor `\s`), so it
only acts as a separator. -/
theorem C10_tokens_are_lowercase_ascii_word_runs (s tok : String) (c d : Char)
    (htok : tok ∈ tokenize s) (hc : c ∈ tok.data)
    (hd : isHangulSyllable d = true) :
    isLowerTokenChar c = true ∧ replaceNonWord (jsToLower d) = ' ' := by
  have hval : 44032 ≤ d.toNat ∧ d.toNat ≤ 55203 := by
    simp only [isHangulSyllable, Bool.and_eq_true, decide_eq_true_eq,
      char_le_iff_toNat] at hd
    rw [show ('가' : Char).toNat = 44032 from by decide,
        show ('힣' : Char).toNat = 55203 from by decide] at hd
    exact hd
  constructor
  · unfold tokenize at htok
    rcases List.mem_map.mp htok with ⟨cs, hcs, htokeq⟩
    have hc' : c ∈ cs := by
      rw [← htokeq] at hc
      simpa using hc
    unfold splitTokens at hcs
    rcases List.mem_filter.mp hcs with ⟨hmem, _⟩
    rcases mem_of_mem_splitOnP isSpaceChar _ cs c hmem hc' with ⟨hin, hnospace⟩
    rcases List.mem_map.mp hin with ⟨b, hb, hbeq⟩
    rcases List.mem_map.mp hb with ⟨a, _, haeq⟩
    subst hbeq
    subst haeq
    by_cases hcond : (!isWordChar (jsToLower a) && !isSpaceChar (jsToLower a)) = true
    · exfalso
      unfold replaceNonWord at hnospace
      rw [if_pos hcond] at hnospace
      exact absurd hnospace (by decide)
    · unfold replaceNonWord at hnospace ⊢
      rw [if_neg hcond] at hnospace ⊢
      have hword : isWordChar (jsToLower a) = true := by
        by_contra hf
        have hf' : isWordChar (jsToLower a) = false := Bool.eq_false_iff.mpr hf
        exact hcond (by simp [hf', hnospace])
      exact word_char_not_upper_is_lower _ hword (jsToLower_not_upper a)
  · have hlower : jsToLower d = d := by
      unfold jsToLower
      rw [if_neg]
      intro hcond
      simp only [Bool.and_eq_true, decide_eq_true_eq, char_le_iff_toNat] at hcond
      rw [show ('Z' : Char).toNat = 90 from by decide] at hcond
      omega
    rw [hlower]
    have hword : isWordChar d = false := by
      rw [Bool.eq_false_iff]
      intro h
      simp only [isWordChar, Bool.or_eq_true, Bool.and_eq_true,
        decide_eq_true_eq, char_le_iff_toNat, char_eq_iff_toNat] at h
      rw [show ('a' : Char).toNat = 97 from by decide,
          show ('z' : Char).toNat = 122 from by decide,
          show ('A' : Char).toNat = 65 from by decide,
          show ('Z' : Char).toNat = 90 from by decide,
          show ('0' : Char).toNat = 48 from by decide,
          show ('9' : Char).toNat = 57 from by decide,
          show ('_' : Char).toNat = 95 from by decide] at h
      omega
    have hspace : isSpaceChar d = false := by
      rw [Bool.eq_false_iff]
      intro h
      simp only [isSpaceChar, Bool.or_eq_true, Bool.and_eq_true,
        decide_eq_true_eq, char_le_iff_toNat, char_eq_iff_toNat] at h
      rw [show (' ' : Char).toNat = 32 from by decide,
          show ('\t' : Char).toNat = 9 from by decide,
          show ('\n' : Char).toNat = 10 from by decide,
          show ('\r' : Char).toNat = 13 from by decide,
          show ('\x0b' : Char).toNat = 11 from by decide,
          show ('\x0c' : Char).toNat = 12 from by decide,
          show (' ' : Char).toNat = 160 from by decide,
          show (' ' : Char).toNat = 5760 from by decide,
          show (' ' : Char).toNat = 8192 from by decide,
          show (' ' : Char).toNat = 8202 from by decide,
          show (' ' : Char).toNat = 8232 from by decide,
          show (' ' : Char).toNat = 8233 from by decide,
          show (' ' : Char).toNat = 8239 from by decide,
          show (' ' : Char).toNat = 8287 from by decide,
          show ('　' : Char).toNat = 12288 from by decide,
          show ('﻿' : Char).toNat = 65279 from by decide] at h
      omega
    unfold replaceNonWord
    rw [if_pos]
    simp [hword, hspace]

/-- Witness for C10: the Korean text tokenizes to its ASCII run. -/
theorem C10_witness :
    "x9_" ∈ tokenize "한국 x9_" ∧ 'x' ∈ "x9_".data ∧
    isHangulSyllable '한' = true ∧
    (isLowerTokenChar 'x' = true ∧ replaceNonWord (jsToLower '한') = ' ') :=
  ⟨by decide, by decide, by decide,
    C10_tokens_are_lowercase_ascii_word_runs "한국 x9_" "x9_" 'x' '한'
      (by decide) (by decide) (by decide)⟩

/-! ## Sorting lemmas -/

theorem insertByScoreDesc_perm {α F : Type} [LinearOrder F] (key : α → F)
    (x : α) (l : List α) : (insertByScoreDesc key x l).Perm (x :: l) := by
  induction l with
  | nil => exact List.Perm.refl _
  | cons y ys ih =>
    unfold insertByScoreDesc
    split
    · exact List.Perm.refl _
    · exact (List.Perm.cons y ih).trans (List.Perm.swap x y ys)

theorem sortByScoreDesc_perm {α F : Type} [LinearOrder F] (key : α → F)
    (l : List α) : (sortByScoreDesc key l).Perm l := by
  induction l with
  | nil => exact List.Perm.refl _
  | cons x xs ih =>
    exact (insertByScoreDesc_perm key x _).trans (List.Perm.cons x ih)

theorem insertByScoreDesc_sorted {α F : Type} [LinearOrder F] (key : α → F)
    (x : α) (l : List α) (hl : l.Pairwise (fun a b => key b ≤ key a)) :
    (insertByScoreDesc key x l).Pairwise (fun a b => key b ≤ key a) := by
  induction l with
  | nil => simp [insertByScoreDesc]
  | cons y ys ih =>
    unfold insertByScoreDesc
    rcases List.pairwise_cons.mp hl with ⟨hy, hys⟩
    split
    · rename_i hle
      refine List.pairwise_cons.mpr ⟨?_, hl⟩
      intro z hz
      rcases List.mem_cons.mp hz with rfl | hz'
      · exact hle
      · exact le_trans (hy z hz') hle
    · rename_i hgt
      refine List.pairwise_cons.mpr ⟨?_, ih hys⟩
      intro z hz
      have hz' := (insertByScoreDesc_perm key x ys).mem_iff.mp hz
      rcases List.mem_cons.mp hz' with rfl | hz''
      · exact le_of_lt (lt_of_not_le hgt)
      · exact hy z hz''

theorem sortByScoreDesc_sorted {α F : Type} [LinearOrder F] (key : α → F)
    (l : List α) :
    (sortByScoreDesc key l).Pairwise (fun a b => key b ≤ key a) := by
  induction l with
  | nil => simp [sortByScoreDesc]
  | cons x xs ih => exact insertByScoreDesc_sorted key x _ ih

/-- In a list where every element satisfying `p` precedes every element
failing it, taking a prefix of length `k` keeps `min k (countP p)`
satisfying elements. -/
theorem countP_take_of_monotone {α : Type} (p : α → Bool) :
    ∀ (l : List α) (k : Nat),
      l.Pairwise (fun a b => p b = true → p a = true) →
      (l.take k).countP p = min k (l.countP p) := by
  intro l
  induction l with
  | nil =>
    intro k _
    simp
  | cons x xs ih =>
    intro k hp
    rcases List.pairwise_cons.mp hp with ⟨hx, hxs⟩
    cases k with
    | zero => simp
    | succ k =>
      rw [List.take_succ_cons]
      cases hpx : p x with
      | true =>
        rw [List.countP_cons_of_pos p _ hpx, List.countP_cons_of_pos p _ hpx,
          ih k hxs, Nat.succ_min_succ]
      | false =>
        have hnpx : ¬ p x = true := by simp [hpx]
        have hzero : xs.countP p = 0 := List.countP_eq_zero.mpr
          (fun b hb hpb => hnpx (hx b hb hpb))
        have htake : (xs.take k).countP p = 0 := List.countP_eq_zero.mpr
          (fun b hb hpb => hnpx (hx b ((List.take_sublist k xs).mem hb) hpb))
        rw [List.countP_cons_of_neg p _ hnpx, List.countP_cons_of_neg p _ hnpx,
          htake, hzero]
        simp

/-! ## C7: topK truncation and ordering -/

/-- Claim C7. `search` returns at most `topK` results, at least
`min topK (number of documents with strictly positive score)` results —
in fact exactly that many — and the returned list is sorted by
non-increasing score. -/
theorem C7_topK_window_and_descending_order (F : Type) [LinearOrderedField F]
    (log : F → F) (docs : List CrawledDoc) (k1 bb : F) (query : String)
    (topK : Nat) :
    (search F log (mkBM25 F docs k1 bb) query topK).length ≤ topK ∧
    min topK (docs.countP (fun d =>
        decide (0 < caculateScore F log (mkBM25 F docs k1 bb) d.title
          (tokenize query)))) ≤
      (search F log (mkBM25 F docs k1 bb) query topK).length ∧
    (search F log (mkBM25 F docs k1 bb) query topK).Pairwise
      (fun r₁ r₂ => r₂.score ≤ r₁.score) := by
  have hdocs : (mkBM25 F docs k1 bb).documents = docs := rfl
  have hsearch : search F log (mkBM25 F docs k1 bb) query topK =
      ((sortByScoreDesc (fun r => r.score)
        (docs.map (fun doc => RankedResult.mk doc
          (caculateScore F log (mkBM25 F docs k1 bb) doc.title
            (tokenize query))))).take topK).filter
        (fun r => decide (0 < r.score)) := rfl
  set p : RankedResult F → Bool := fun r => decide (0 < r.score) with hp
  set base := docs.map (fun doc => RankedResult.mk doc
    (caculateScore F log (mkBM25 F docs k1 bb) doc.title (tokenize query)))
    with hbase
  set s := sortByScoreDesc (fun r : RankedResult F => r.score) base with hs
  have hsorted : s.Pairwise (fun a b => b.score ≤ a.score) :=
    sortByScoreDesc_sorted _ _
  have hmono : s.Pairwise (fun a b => p b = true → p a = true) := by
    refine hsorted.imp ?_
    intro a c hle hpc
    simp only [hp, decide_eq_true_eq] at hpc ⊢
    exact lt_of_lt_of_le hpc hle
  have hlen : ((s.take topK).filter p).length = min topK (s.countP p) := by
    rw [← List.countP_eq_length_filter, countP_take_of_monotone p s topK hmono]
  have hcount : s.countP p = docs.countP (fun d =>
      decide (0 < caculateScore F log (mkBM25 F docs k1 bb) d.title
        (tokenize query))) := by
    rw [(sortByScoreDesc_perm _ _).countP_eq, hbase, List.countP_map]
    rfl
  refine ⟨?_, ?_, ?_⟩
  · rw [hsearch, hlen]
    exact Nat.min_le_left _ _
  · rw [hsearch, hlen, hcount]
  · rw [hsearch]
    exact List.Pairwise.sublist
      ((List.filter_sublist _).trans (List.take_sublist _ _)) hsorted

/-! ## Index invariants -/

/-- One document-count update keeps every stored value at 1. -/
theorem documentCnts_step_values_one {m : List (String × Nat)}
    (hP : ∀ t v, jsGet m t = some v → v = 1) (k : String) :
    ∀ t v, jsGet (jsSet m k ((jsGet m k).getD (0 + 1))) t = some v → v = 1 := by
  intro t v hv
  by_cases ht : t = k
  · subst ht
    rw [jsGet_jsSet_self] at hv
    cases hg : jsGet m t with
    | none =>
      rw [hg] at hv
      simpa using hv.symm
    | some w =>
      rw [hg] at hv
      simp only [Option.getD_some, Option.some.injEq] at hv
      have hw := hP t w hg
      omega
  · rw [jsGet_jsSet_ne m k t _ ht] at hv
    exact hP t v hv

theorem documentCnts_inner_fold_values_one (terms : List String) :
    ∀ m : List (String × Nat), (∀ t v, jsGet m t = some v → v = 1) →
    ∀ t v,
      jsGet (terms.foldl
        (fun m term => jsSet m term ((jsGet m term).getD (0 + 1))) m) t =
        some v → v = 1 := by
  induction terms with
  | nil =>
    intro m h
    exact h
  | cons x xs ih =>
    intro m h
    exact ih _ (documentCnts_step_values_one h x)

theorem documentCnts_fold_values_one (docs : List CrawledDoc) :
    ∀ acc : Nat × List (String × Nat) × List (String × List (String × Nat)) ×
      List (String × Nat),
    (∀ t v, jsGet acc.2.2.2 t = some v → v = 1) →
    ∀ t v, jsGet (docs.foldl indexDoc acc).2.2.2 t = some v → v = 1 := by
  induction docs with
  | nil =>
    intro acc h
    exact h
  | cons d ds ih =>
    intro acc h
    obtain ⟨tl, dl, tf, dc⟩ := acc
    exact ih _ (documentCnts_inner_fold_values_one _ dc h)

/-- Every value stored in `documentCntsHasTerm` is 1 (the stunted count);
a stored term also forces a nonempty collection. -/
theorem documentCnts_fold_lookup (docs : List CrawledDoc) (term : String)
    (v : Nat)
    (hv : jsGet (docs.foldl indexDoc (0, [], [], [])).2.2.2 term = some v) :
    v = 1 ∧ docs ≠ [] := by
  constructor
  · exact documentCnts_fold_values_one docs (0, [], [], [])
      (by intro t w hw; simp [jsGet] at hw) term v hv
  · intro hnil
    subst hnil
    simp [jsGet] at hv

/-! ## Score non-negativity -/

theorem foldl_preserves_nonneg {F : Type} [LinearOrderedField F]
    (f : F → String → F) (hstep : ∀ acc t, 0 ≤ acc → 0 ≤ f acc t) :
    ∀ (l : List String) (acc : F), 0 ≤ acc → 0 ≤ l.foldl f acc := by
  intro l
  induction l with
  | nil =>
    intro acc h
    exact h
  | cons x xs ih =>
    intro acc h
    exact ih _ (hstep acc x h)

theorem avgDocLength_nonneg (F : Type) [LinearOrderedField F]
    (docs : List CrawledDoc) (k1 bb : F) :
    0 ≤ (mkBM25 F docs k1 bb).avgDocLength :=
  div_nonneg (Nat.cast_nonneg _) (Nat.cast_nonneg _)

theorem calculateIDF_nonneg (F : Type) [LinearOrderedField F] (log : F → F)
    (hlog : ∀ x : F, 1 ≤ x → 0 ≤ log x)
    (docs : List CrawledDoc) (k1 bb : F) (term : String) :
    0 ≤ calculateIDF F log (mkBM25 F docs k1 bb) term := by
  unfold calculateIDF
  apply hlog
  rcases hg : jsGet (mkBM25 F docs k1 bb).documentCntsHasTerm term with _ | v
  · simp only [Option.getD_none, Nat.cast_zero]
    rw [le_add_iff_nonneg_left]
    apply div_nonneg
    · have : (0 : F) ≤ ((mkBM25 F docs k1 bb).documents.length : F) :=
        Nat.cast_nonneg _
      linarith
    · norm_num
  · have hlk := documentCnts_fold_lookup docs term v hg
    have hv1 : v = 1 := hlk.1
    subst hv1
    have hlen : 1 ≤ docs.length := List.length_pos.mpr hlk.2
    have hlenF : (1 : F) ≤ ((mkBM25 F docs k1 bb).documents.length : F) := by
      exact_mod_cast hlen
    simp only [Option.getD_some, Nat.cast_one]
    rw [le_add_iff_nonneg_left]
    apply div_nonneg
    · linarith
    · norm_num

theorem caculateScore_nonneg (F : Type) [LinearOrderedField F] (log : F → F)
    (hlog : ∀ x : F, 1 ≤ x → 0 ≤ log x)
    (docs : List CrawledDoc) (k1 bb : F) (title : String)
    (queryTerm : List String) (hk1 : 0 ≤ k1) (hb0 : 0 ≤ bb) (hb1 : bb ≤ 1) :
    0 ≤ caculateScore F log (mkBM25 F docs k1 bb) title queryTerm := by
  unfold caculateScore
  simp only [show (mkBM25 F docs k1 bb).k1 = k1 from rfl,
    show (mkBM25 F docs k1 bb).b = bb from rfl]
  split
  · exact le_refl 0
  · apply foldl_preserves_nonneg _ _ _ _ (le_refl 0)
    intro acc t hacc
    dsimp only
    split
    · exact hacc
    · apply add_nonneg hacc
      apply mul_nonneg (calculateIDF_nonneg F log hlog docs k1 bb t)
      apply div_nonneg
      · apply mul_nonneg (Nat.cast_nonneg _)
        linarith
      · apply add_nonneg (Nat.cast_nonneg _)
        apply mul_nonneg hk1
        have hratio : (0 : F) ≤
            (((jsGet (mkBM25 F docs k1 bb).docLengths title).getD 0 : Nat) : F) /
              (mkBM25 F docs k1 bb).avgDocLength :=
          div_nonneg (Nat.cast_nonneg _) (avgDocLength_nonneg F docs k1 bb)
        nlinarith

/-! ## Term-frequency lookup under distinct titles -/

/-- Folding documents whose titles all differ from `t` does not change the
term-frequency binding of `t`. -/
theorem termFreqs_fold_preserves (ds : List CrawledDoc) (t : String)
    (hne : ∀ e ∈ ds, e.title ≠ t) :
    ∀ acc : Nat × List (String × Nat) × List (String × List (String × Nat)) ×
      List (String × Nat),
    jsGet (ds.foldl indexDoc acc).2.2.1 t = jsGet acc.2.2.1 t := by
  induction ds with
  | nil =>
    intro acc
    rfl
  | cons e es ih =>
    intro acc
    obtain ⟨tl, dl, tf, dc⟩ := acc
    rw [List.foldl_cons,
      ih (fun x hx => hne x (List.mem_cons_of_mem _ hx)) _]
    exact jsGet_jsSet_ne tf e.title t _
      (fun h => hne e (List.mem_cons_self _ _) h.symm)

/-- With pairwise-distinct titles, the term-frequency entry of a document's
title is that document's own token-count map. -/
theorem termFreqs_lookup_own_aux (docs : List CrawledDoc) :
    ∀ acc : Nat × List (String × Nat) × List (String × List (String × Nat)) ×
      List (String × Nat),
    (docs.map (fun d => d.title)).Nodup →
    ∀ D ∈ docs,
    jsGet (docs.foldl indexDoc acc).2.2.1 D.title =
      some (buildTermFreq (tokenize D.content)) := by
  induction docs with
  | nil =>
    intro acc _ D hD
    simp at hD
  | cons d ds ih =>
    intro acc hnodup D hD
    obtain ⟨tl, dl, tf, dc⟩ := acc
    rcases List.mem_cons.mp hD with rfl | hD'
    · have hne : ∀ e ∈ ds, e.title ≠ D.title := by
        intro e he heq
        have hmem : D.title ∈ ds.map (fun d => d.title) :=
          heq ▸ List.mem_map_of_mem _ he
        exact (List.nodup_cons.mp hnodup).1 hmem
      rw [List.foldl_cons, termFreqs_fold_preserves ds D.title hne _]
      exact jsGet_jsSet_self tf D.title _
    · exact ih _ (List.nodup_cons.mp hnodup).2 D hD'

/-- A token absent from a document never has an entry in that document's
term-frequency map. -/
theorem jsGet_buildTermFreq_of_not_mem :
    ∀ (tokens : List String) (m : List (String × Nat)) (t : String),
      t ∉ tokens → jsGet m t = none →
      jsGet (tokens.foldl
        (fun tf token => jsSet tf token ((jsGet tf token).getD 0 + 1)) m) t =
        none := by
  intro tokens
  induction tokens with
  | nil =>
    intro m t _ h
    exact h
  | cons x xs ih =>
    intro m t ht h
    rw [List.foldl_cons]
    apply ih _ t (fun h' => ht (List.mem_cons_of_mem _ h'))
    rw [jsGet_jsSet_ne m x t _ (fun he => ht (he ▸ List.mem_cons_self _ _))]
    exact h

/-- A document sharing no token with the query scores 0 (provided titles
are pairwise distinct, so its own map is consulted). -/
theorem caculateScore_no_overlap_zero (F : Type) [LinearOrderedField F]
    (log : F → F) (docs : List CrawledDoc) (k1 bb : F) (D : CrawledDoc)
    (queryTerm : List String)
    (hnodup : (docs.map (fun d => d.title)).Nodup) (hD : D ∈ docs)
    (hdisj : ∀ t ∈ queryTerm, t ∉ tokenize D.content) :
    caculateScore F log (mkBM25 F docs k1 bb) D.title queryTerm = 0 := by
  unfold caculateScore
  have hown : jsGet (mkBM25 F docs k1 bb).termFrequencies D.title =
      some (buildTermFreq (tokenize D.content)) :=
    termFreqs_lookup_own_aux docs (0, [], [], []) hnodup D hD
  rw [hown]
  dsimp only
  have hzero : ∀ t ∈ queryTerm,
      jsGet (buildTermFreq (tokenize D.content)) t = none := by
    intro t ht
    exact jsGet_buildTermFreq_of_not_mem _ [] t (hdisj t ht) rfl
  clear hown hD hnodup hdisj
  induction queryTerm with
  | nil => rfl
  | cons q qs ih =>
    rw [List.foldl_cons]
    have hq := hzero q (List.mem_cons_self _ _)
    simp only [hq, Option.getD_none, if_pos]
    exact ih (fun t ht => hzero t (List.mem_cons_of_mem _ ht))

/-! ## C8: score signs and exclusion of non-overlapping documents -/

/-- Claim C8, amended. With the class-default hyperparameters `k1 = 1.5`,
`b = 0.75` and the natural logarithm: every computed score is
non-negative and every returned result has strictly positive score, for
every collection; and — provided the indexed titles are pairwise
distinct — a document sharing no token with the query never appears in
the result list.  (The distinct-title proviso is forced, and it scopes
only the exclusion conjunct: term frequencies are keyed by title, so a
title collision can hand a token-free document another document's
score.) -/
theorem C8_amended_nonneg_positive_excluded (docs : List CrawledDoc)
    (query : String) (topK : Nat) (title : String) (D : CrawledDoc) :
    0 ≤ caculateScore ℝ Real.log (mkBM25 ℝ docs (3 / 2) (3 / 4)) title
      (tokenize query) ∧
    (∀ r ∈ search ℝ Real.log (mkBM25 ℝ docs (3 / 2) (3 / 4)) query topK,
      0 < r.score) ∧
    ((docs.map (fun d => d.title)).Nodup → D ∈ docs →
      (∀ t ∈ tokenize query, t ∉ tokenize D.content) →
      D ∉ (search ℝ Real.log (mkBM25 ℝ docs (3 / 2) (3 / 4)) query topK).map
        (fun r => r.document)) := by
  have hsearch : search ℝ Real.log (mkBM25 ℝ docs (3 / 2) (3 / 4)) query topK =
      ((sortByScoreDesc (fun r : RankedResult ℝ => r.score)
        (docs.map (fun doc => RankedResult.mk doc
          (caculateScore ℝ Real.log (mkBM25 ℝ docs (3 / 2) (3 / 4)) doc.title
            (tokenize query))))).take topK).filter
        (fun r => decide (0 < r.score)) := rfl
  refine ⟨?_, ?_, ?_⟩
  · exact caculateScore_nonneg ℝ Real.log (fun x hx => Real.log_nonneg hx)
      docs (3 / 2) (3 / 4) title (tokenize query) (by norm_num) (by norm_num)
      (by norm_num)
  · intro r hr
    rw [hsearch] at hr
    have := (List.mem_filter.mp hr).2
    simpa using this
  · intro hnodup hD hdisj hmem
    rcases List.mem_map.mp hmem with ⟨r, hr, hrd⟩
    rw [hsearch] at hr
    have hpos : (0 : ℝ) < r.score := by
      simpa using (List.mem_filter.mp hr).2
    have hr2 : r ∈ docs.map (fun doc => RankedResult.mk doc
        (caculateScore ℝ Real.log (mkBM25 ℝ docs (3 / 2) (3 / 4)) doc.title
          (tokenize query))) := by
      have hs : r ∈ sortByScoreDesc (fun r : RankedResult ℝ => r.score)
          (docs.map (fun doc => RankedResult.mk doc
            (caculateScore ℝ Real.log (mkBM25 ℝ docs (3 / 2) (3 / 4)) doc.title
              (tokenize query)))) :=
        (List.take_sublist _ _).mem ((List.mem_filter.mp hr).1)
      exact (sortByScoreDesc_perm _ _).mem_iff.mp hs
    rcases List.mem_map.mp hr2 with ⟨doc, hdoc, heq⟩
    have hdocD : doc = D := by
      have : r.document = doc := by rw [← heq]
      rw [← hrd, this]
    subst hdocD
    have hzero : r.score = 0 := by
      rw [← heq]
      exact caculateScore_no_overlap_zero ℝ Real.log docs (3 / 2) (3 / 4) doc
        (tokenize query) hnodup hdoc hdisj
    rw [hzero] at hpos
    exact lt_irrefl 0 hpos

/-- Witness for the amended C8 on a one-document collection and a
disjoint query. -/
theorem C8_amended_witness :
    (([⟨"X", "a"⟩] : List CrawledDoc).map (fun d => d.title)).Nodup ∧
    (⟨"X", "a"⟩ : CrawledDoc) ∈ ([⟨"X", "a"⟩] : List CrawledDoc) ∧
    (∀ t ∈ tokenize "b", t ∉ tokenize (CrawledDoc.mk "X" "a").content) ∧
    (⟨"X", "a"⟩ : CrawledDoc) ∉
      (search ℝ Real.log (mkBM25 ℝ [⟨"X", "a"⟩] (3 / 2) (3 / 4)) "b" 7).map
        (fun r => r.document) :=
  ⟨by decide, by decide, by decide,
    (C8_amended_nonneg_positive_excluded [⟨"X", "a"⟩] "b" 7 "X" ⟨"X", "a"⟩).2.2
      (by decide) (by decide) (by decide)⟩

/-! ### Evaluation of the shared-title collection -/

theorem sharedTitle_termFreq :
    jsGet ((mkBM25 ℝ docsSharedTitle (3 / 2) (3 / 4)).termFrequencies) "T" =
      some [("b", 1)] := by decide

theorem sharedTitle_docLength :
    jsGet ((mkBM25 ℝ docsSharedTitle (3 / 2) (3 / 4)).docLengths) "T" =
      some 1 := by decide

theorem sharedTitle_documentCnt :
    jsGet ((mkBM25 ℝ docsSharedTitle (3 / 2) (3 / 4)).documentCntsHasTerm) "b" =
      some 1 := by decide

theorem sharedTitle_avg :
    (mkBM25 ℝ docsSharedTitle (3 / 2) (3 / 4)).avgDocLength = 1 := by
  show ((docsSharedTitle.foldl indexDoc (0, [], [], [])).1 : ℝ) /
      ((docsSharedTitle.length : Nat) : ℝ) = 1
  rw [show (docsSharedTitle.foldl indexDoc (0, [], [], [])).1 = 2 from by decide,
      show docsSharedTitle.length = 2 from rfl]
  norm_num

theorem sharedTitle_idf :
    calculateIDF ℝ Real.log (mkBM25 ℝ docsSharedTitle (3 / 2) (3 / 4)) "b" =
      Real.log 2 := by
  unfold calculateIDF
  dsimp only
  rw [sharedTitle_documentCnt,
    show (mkBM25 ℝ docsSharedTitle (3 / 2) (3 / 4)).documents.length = 2 from rfl]
  norm_num

/-- Both documents of `docsSharedTitle` score through the single
term-frequency entry of the shared title "T" — which holds the tokens of
the *second* document only. -/
theorem sharedTitle_score :
    caculateScore ℝ Real.log (mkBM25 ℝ docsSharedTitle (3 / 2) (3 / 4)) "T"
      (tokenize "b") = Real.log 2 := by
  unfold caculateScore
  dsimp only
  rw [sharedTitle_termFreq]
  dsimp only
  rw [show tokenize "b" = ["b"] from by decide]
  simp only [List.foldl_cons, List.foldl_nil]
  rw [show jsGet [("b", (1 : Nat))] "b" = some 1 from by decide]
  simp only [Option.getD_some]
  rw [if_neg (by norm_num)]
  rw [sharedTitle_docLength, sharedTitle_avg, sharedTitle_idf,
    show (mkBM25 ℝ docsSharedTitle (3 / 2) (3 / 4)).k1 = (3 / 2 : ℝ) from rfl,
    show (mkBM25 ℝ docsSharedTitle (3 / 2) (3 / 4)).b = (3 / 4 : ℝ) from rfl]
  norm_num

/-- Claim C8, counterexample. Term frequencies are keyed by document title.
In the collection `docsSharedTitle` both documents carry the title "T",
so the token-free first document `{T, "a"}` is scored through the second
document's tokens and is returned by `search` for the query "b" although
it shares no token with that query. -/
theorem C8_counterexample_shared_title :
    (∀ t ∈ tokenize "b", t ∉ tokenize (CrawledDoc.mk "T" "a").content) ∧
    CrawledDoc.mk "T" "a" ∈
      (search ℝ Real.log (mkBM25 ℝ docsSharedTitle (3 / 2) (3 / 4)) "b" 7).map
        (fun r => r.document) := by
  refine ⟨by decide, ?_⟩
  have hpos : (0 : ℝ) < caculateScore ℝ Real.log
      (mkBM25 ℝ docsSharedTitle (3 / 2) (3 / 4)) "T" (tokenize "b") := by
    rw [sharedTitle_score]
    exact Real.log_pos (by norm_num)
  have hx : RankedResult.mk (CrawledDoc.mk "T" "a")
      (caculateScore ℝ Real.log (mkBM25 ℝ docsSharedTitle (3 / 2) (3 / 4)) "T"
        (tokenize "b")) ∈
      search ℝ Real.log (mkBM25 ℝ docsSharedTitle (3 / 2) (3 / 4)) "b" 7 := by
    show _ ∈ ((sortByScoreDesc (fun r : RankedResult ℝ => r.score)
        (docsSharedTitle.map (fun doc => RankedResult.mk doc
          (caculateScore ℝ Real.log (mkBM25 ℝ docsSharedTitle (3 / 2) (3 / 4))
            doc.title (tokenize "b"))))).take 7).filter
        (fun r => decide (0 < r.score))
    apply List.mem_filter.mpr
    constructor
    · have hlen7 : (sortByScoreDesc (fun r : RankedResult ℝ => r.score)
          (docsSharedTitle.map (fun doc => RankedResult.mk doc
            (caculateScore ℝ Real.log (mkBM25 ℝ docsSharedTitle (3 / 2) (3 / 4))
              doc.title (tokenize "b"))))).length ≤ 7 := by
        rw [(sortByScoreDesc_perm _ _).length_eq]
        simp [docsSharedTitle]
      rw [List.take_of_length_le hlen7]
      apply (sortByScoreDesc_perm _ _).mem_iff.mpr
      exact List.mem_map_of_mem _ (List.mem_cons_self _ _)
    · exact decide_eq_true hpos
  exact List.mem_map_of_mem _ hx

/-! ## C2: the worked example -/

theorem workedExample_termFreq :
    jsGet ((mkBM25 ℝ docsWorkedExample (3 / 2) (3 / 4)).termFrequencies) "D1" =
      some [("t", 3), ("a", 1), ("b", 1), ("c", 1), ("d", 1), ("e", 1),
        ("f", 1), ("g", 1)] := by decide

theorem workedExample_docLength :
    jsGet ((mkBM25 ℝ docsWorkedExample (3 / 2) (3 / 4)).docLengths) "D1" =
      some 10 := by decide

theorem workedExample_documentCnt :
    jsGet ((mkBM25 ℝ docsWorkedExample (3 / 2) (3 / 4)).documentCntsHasTerm)
      "t" = some 1 := by decide

theorem workedExample_avg :
    (mkBM25 ℝ docsWorkedExample (3 / 2) (3 / 4)).avgDocLength = 15 / 2 := by
  show ((docsWorkedExample.foldl indexDoc (0, [], [], [])).1 : ℝ) /
      ((docsWorkedExample.length : Nat) : ℝ) = 15 / 2
  rw [show (docsWorkedExample.foldl indexDoc (0, [], [], [])).1 = 15 from
      by decide,
    show docsWorkedExample.length = 2 from rfl]
  norm_num

/-- The IDF the code computes for the worked example's query term: the
stored document frequency is the stunted 1, not 2, so the code evaluates
`ln((2 - 1 + 0.5)/(1 + 0.5) + 1) = ln 2`. -/
theorem workedExample_idf :
    calculateIDF ℝ Real.log (mkBM25 ℝ docsWorkedExample (3 / 2) (3 / 4)) "t" =
      Real.log 2 := by
  unfold calculateIDF
  dsimp only
  rw [workedExample_documentCnt,
    show (mkBM25 ℝ docsWorkedExample (3 / 2) (3 / 4)).documents.length = 2
      from rfl]
  norm_num

theorem workedExample_score :
    caculateScore ℝ Real.log (mkBM25 ℝ docsWorkedExample (3 / 2) (3 / 4)) "D1"
      (tokenize "t") = Real.log 2 * (20 / 13) := by
  unfold caculateScore
  dsimp only
  rw [workedExample_termFreq]
  dsimp only
  rw [show tokenize "t" = ["t"] from by decide]
  simp only [List.foldl_cons, List.foldl_nil]
  rw [show jsGet [("t", (3 : Nat)), ("a", 1), ("b", 1), ("c", 1), ("d", 1),
      ("e", 1), ("f", 1), ("g", 1)] "t" = some 3 from by decide]
  simp only [Option.getD_some]
  rw [if_neg (by norm_num)]
  rw [workedExample_docLength, workedExample_avg, workedExample_idf,
    show (mkBM25 ℝ docsWorkedExample (3 / 2) (3 / 4)).k1 = (3 / 2 : ℝ) from rfl,
    show (mkBM25 ℝ docsWorkedExample (3 / 2) (3 / 4)).b = (3 / 4 : ℝ) from rfl]
  norm_num

/-- Claim C2. On the spec's worked example (`D1`: 10 tokens containing the
query term 3 times, `D2`: 5 tokens containing it once, `N = 2`,
`k1 = 1.5`, `b = 0.75`), the code's score for `D1` is
`ln 2 * 20/13` because the stored document frequency of the term is the
stunted 1; the claimed closed form with `df = 2` is
`ln(6/5) * 20/13`, and the two differ. -/
theorem C2_worked_example_score_deviates_from_formula :
    caculateScore ℝ Real.log (mkBM25 ℝ docsWorkedExample (3 / 2) (3 / 4)) "D1"
      (tokenize "t") = Real.log 2 * (20 / 13) ∧
    Real.log (((2 : ℝ) - 2 + 1 / 2) / (2 + 1 / 2) + 1) *
        ((3 * (3 / 2 + 1)) /
          (3 + (3 / 2) * (1 - 3 / 4 + (3 / 4) * (10 / (15 / 2))))) =
      Real.log (6 / 5) * (20 / 13) ∧
    Real.log 2 * ((20 : ℝ) / 13) ≠ Real.log (6 / 5) * (20 / 13) := by
  refine ⟨workedExample_score, ?_, ?_⟩
  · have harg : ((2 : ℝ) - 2 + 1 / 2) / (2 + 1 / 2) + 1 = 6 / 5 := by norm_num
    have hw : ((3 : ℝ) * (3 / 2 + 1)) /
        (3 + (3 / 2) * (1 - 3 / 4 + (3 / 4) * (10 / (15 / 2)))) = 20 / 13 := by
      norm_num
    rw [harg, hw]
  · intro h
    have hlt : Real.log (6 / 5) < Real.log 2 :=
      Real.log_lt_log (by norm_num) (by norm_num)
    have hcancel : Real.log 2 = Real.log (6 / 5) :=
      mul_right_cancel₀ (by norm_num) h
    exact absurd hcancel (ne_of_gt hlt)
